import Mathlib

/-!
Verification development for the routing engine in `app/optimizer.py` of the
ai-logistics-mvp repository.

Modelling conventions (shallow embedding):

* Python floats are modelled as exact rationals (`ℚ`).  `round(x)` /
  `round(x, 2)` are modelled as exact round-half-to-even (`pyRound0`,
  `pyRound2`).
* `haversine_miles` computes transcendental float arithmetic (sin, cos, asin,
  sqrt); its value at given coordinates is not expressible by exact rational
  computation, so every embedded function is parametrised by an abstract
  distance function `dist : LatLng → LatLng → ℚ` standing for
  `haversine_miles`.  All structural claims are proved for every such `dist`
  (with a non-negativity hypothesis where the source relies on
  `haversine_miles ≥ 0`), hence in particular for the real haversine distance.
* The external OR-Tools solver (`pywrapcp`) is not part of the repository; it
  is modelled as an oracle `solver : SolverModel → Option (List (List Nat))`
  receiving exactly the data the code feeds into the solver (matrix, fleet
  parameters, demands, parsed time windows) and returning, per vehicle, the
  non-depot node indices in visit order.  `HAVE_OR_TOOLS` is the boolean
  parameter `haveOrTools`.
* Python exceptions are modelled as `Except.error`; a normal return is
  `Except.ok`.
-/

set_option allowUnsafeReducibility true in
attribute [semireducible] Rat.add Rat.mul Rat.sub Rat.inv

deriving instance DecidableEq for Except

namespace RouteOpt

/-- Coordinates `(lat, lng)`, Python tuple `LatLng = Tuple[float, float]`. -/
abbrev LatLng : Type := ℚ × ℚ

/-- Python tuple `Stop = (id, lat, lng, name, demand, tw_start, tw_end)`
(fields `s[0]` … `s[6]` in the source). -/
structure Stop where
  id : String
  lat : ℚ
  lng : ℚ
  name : Option String
  demand : Int
  tw_start : Option String
  tw_end : Option String
deriving DecidableEq

/-- Position `(s[1], s[2])` of a stop. -/
def Stop.pos (s : Stop) : LatLng := (s.lat, s.lng)

/-- A per-stop route entry, the dict
`\x7bid, lat, lng, name, demand\x7d` built by `optimize_routes`. -/
structure StopDict where
  id : String
  lat : ℚ
  lng : ℚ
  name : Option String
  demand : Int
deriving DecidableEq

/-- Conversion of a stop tuple to the route-entry dict. -/
def stopDict (s : Stop) : StopDict :=
  ⟨s.id, s.lat, s.lng, s.name, s.demand⟩

/-- The result dict of `optimize_routes`; `note` is `none` when the key is
absent (the code only sets non-empty notes). -/
structure RoutingResult where
  engine : String
  routes : List (List StopDict)
  total_miles : ℚ
  baseline_miles : ℚ
  savings_pct : ℚ
  note : Option String
deriving DecidableEq

/-- Python `int(round(x))` for floats without `ndigits`: round half to even. -/
def pyRound0 (q : ℚ) : Int :=
  let f := q.floor
  let r := q - (f : ℚ)
  if r < 1/2 then f
  else if 1/2 < r then f + 1
  else if f % 2 = 0 then f else f + 1

/-- Python `round(x, 2)`: round half to even at two decimal places. -/
def pyRound2 (q : ℚ) : ℚ :=
  (pyRound0 (q * 100) : ℚ) / 100

/-- Whitespace stripping at both ends, Python `str.strip()` (character-level
model of the string, since the core `String` operations are well-founded
recursions). -/
def pyStrip (cs : List Char) : List Char :=
  ((cs.dropWhile Char.isWhitespace).reverse.dropWhile Char.isWhitespace).reverse

/-- Lower-casing, Python `str.lower()`. -/
def pyLower (cs : List Char) : List Char := cs.map Char.toLower

/-- Splitting on the colon character, Python `str.split(":")`. -/
def pySplitColon : List Char → List (List Char)
  | [] => [[]]
  | c :: rest =>
    let r := pySplitColon rest
    if c = ':' then [] :: r
    else
      match r with
      | [] => [[c]]
      | g :: gs => (c :: g) :: gs

/-- Digit-string to number, `none` when empty or a non-digit occurs
(the digit part of Python `int(str)`). -/
def digitsToNat (cs : List Char) : Option Nat :=
  if cs = [] then none
  else
    cs.foldl (fun acc c =>
      match acc with
      | none => none
      | some n => if c.isDigit then some (n * 10 + (c.toNat - 48)) else none)
      (some 0)

/-- Python `int(s)`: surrounding whitespace stripped, optional sign, decimal
digits; `none` models the `ValueError` raise. -/
def pyInt (cs : List Char) : Option Int :=
  match pyStrip cs with
  | '+' :: rest => (digitsToNat rest).map (fun n => (n : Int))
  | '-' :: rest => (digitsToNat rest).map (fun n => -(n : Int))
  | ds => (digitsToNat ds).map (fun n => (n : Int))

/-- Function `parse_hhmm` of optimizer.py.  Returns `.ok none` for
absent/empty/"nan" input; splits on `:` and returns `hour*60 + minute`;
a failed two-way split or a failed `int()` raises, modelled as `.error`. -/
def parse_hhmm (hhmm : Option String) : Except String (Option Int) :=
  match hhmm with
  | none => .ok none
  | some s =>
    let cs := s.toList
    if cs = [] ∨ pyStrip cs = [] ∨ pyLower cs = "nan".toList then .ok none
    else
      match pySplitColon cs with
      | [hh, mm] =>
        match pyInt hh, pyInt mm with
        | some h, some m => .ok (some (h * 60 + m))
        | _, _ => .error "ValueError: invalid literal for int"
      | _ => .error "ValueError: cannot unpack split result"

/-- Python `v or d` for `v : Optional[int]` (`None` and `0` are both falsy). -/
def pyOr (v : Option Int) (d : Int) : Int :=
  match v with
  | none => d
  | some x => if x = 0 then d else x

/-- Update of `(best_idx, best_dist)` by one candidate in `_greedy_order`:
replace only on a strict improvement (`d < best_dist`); the initial infinite
`best_dist` is modelled by `none`. -/
def selStep (dist : LatLng → LatLng → ℚ) (curr : LatLng)
    (best : Option (Nat × ℚ)) (p : Nat × Stop) : Option (Nat × ℚ) :=
  match best with
  | none => some (p.1, dist curr p.2.pos)
  | some (bi, bd) =>
    if dist curr p.2.pos < bd then some (p.1, dist curr p.2.pos)
    else some (bi, bd)

/-- One selection pass of `_greedy_order`: fold over `enumerate(stops)`
skipping visited indices. -/
def bestStep (dist : LatLng → LatLng → ℚ) (curr : LatLng) (stops : List Stop)
    (visited : List Nat) : Option (Nat × ℚ) :=
  stops.enum.foldl
    (fun best p => if p.1 ∈ visited then best else selStep dist curr best p)
    none

/-- The `while` loop of `_greedy_order`, with fuel `len(stops)` (each
iteration visits exactly one new stop).  Over exact rationals `bestStep`
never returns `none` while an unvisited stop remains, so the `none` and
out-of-range branches are unreachable. -/
def greedyAux (dist : LatLng → LatLng → ℚ) (stops : List Stop) :
    Nat → LatLng → List Nat → List Nat
  | 0, _, _ => []
  | fuel + 1, curr, visited =>
    match bestStep dist curr stops visited with
    | none => []
    | some (i, _) =>
      match stops.get? i with
      | none => []
      | some s => i :: greedyAux dist stops fuel s.pos (i :: visited)

/-- Function `_greedy_order` of optimizer.py. -/
def greedy_order (dist : LatLng → LatLng → ℚ) (depot : LatLng)
    (stops : List Stop) : List Nat :=
  greedyAux dist stops stops.length depot []

/-- Python `buckets[k].append(x)` on a list of buckets. -/
def appendAt (bs : List (List Nat)) (k : Nat) (x : Nat) : List (List Nat) :=
  bs.set k (bs.getD k [] ++ [x])

/-- The round-robin loop
`for idx, s_idx in enumerate(order): buckets[idx % len(buckets)].append(s_idx)`
starting from `nb` empty buckets. -/
def fillBuckets (nb : Nat) (order : List Nat) : List (List Nat) :=
  order.enum.foldl (fun bs p => appendAt bs (p.1 % nb) p.2)
    (List.replicate nb [])

/-- The per-bucket distance walk of the fallback block: from `curr`, visit the
indexed stops in order, then return to the depot.  An out-of-range index
(impossible for greedy buckets) is skipped. -/
def walk (dist : LatLng → LatLng → ℚ) (depot : LatLng) (stops : List Stop) :
    LatLng → List Nat → ℚ
  | curr, [] => dist curr depot
  | curr, i :: rest =>
    match stops.get? i with
    | none => walk dist depot stops curr rest
    | some s => dist curr s.pos + walk dist depot stops s.pos rest

/-- The per-bucket route dict list built by the fallback block. -/
def mkRoute (stops : List Stop) (b : List Nat) : List StopDict :=
  b.filterMap (fun i => (stops.get? i).map stopDict)

/-- Total (unrounded) miles accumulated by the fallback block across all
buckets (an empty bucket contributes `dist depot depot`, exactly as the code
adds `haversine_miles(curr, depot)` with `curr = depot`). -/
def greedyTotal (dist : LatLng → LatLng → ℚ) (depot : LatLng)
    (stops : List Stop) (nb : Nat) : ℚ :=
  ((fillBuckets nb (greedy_order dist depot stops)).map
    (walk dist depot stops depot)).foldl (· + ·) 0

/-- The `engine == "greedy-fallback"` block of `optimize_routes`: nearest
neighbour order, `max(1, vehicle_count)` round-robin buckets, non-empty
per-vehicle routes, rounded total. -/
def greedyBlock (dist : LatLng → LatLng → ℚ) (depot : LatLng)
    (stops : List Stop) (vehicle_count : Int) :
    List (List StopDict) × ℚ :=
  let order := greedy_order dist depot stops
  let nb := (max 1 vehicle_count).toNat
  let buckets := fillBuckets nb order
  (((buckets.map (mkRoute stops)).filter (fun r => !r.isEmpty)),
    pyRound2 (greedyTotal dist depot stops nb))

/-- The baseline walk: depot → stops in input order → depot, using the
geodesic distance directly. -/
def baselineWalk (dist : LatLng → LatLng → ℚ) (depot : LatLng) :
    LatLng → List Stop → ℚ
  | curr, [] => dist curr depot
  | curr, s :: rest => dist curr s.pos + baselineWalk dist depot s.pos rest

/-- The pseudo-stop `("depot", depot[0], depot[1], "Depot", 0, tws, twe)`
prepended to `stops` to form `points`. -/
def depotStop (depot : LatLng) (ts te : Option String) : Stop :=
  ⟨"depot", depot.1, depot.2, some "Depot", 0, ts, te⟩

/-- Cell `(i, j)` of `dist_mmile`: integer-scaled distance
`int(round(miles * 1000))`, zero on the diagonal (and for out-of-range
indices, which never occur). -/
def dist_mmile (dist : LatLng → LatLng → ℚ) (points : List Stop)
    (i j : Nat) : Int :=
  if i = j then 0
  else
    match points.get? i, points.get? j with
    | some a, some b => pyRound0 (dist a.pos b.pos * 1000)
    | _, _ => 0

/-- The data `optimize_routes` hands to OR-Tools: node count, the raw
`vehicle_count` (as passed to `RoutingIndexManager`), the scaled matrix,
clamped demands, per-vehicle clamped capacities
(`[max(1, vehicle_capacity)] * vehicle_count`), and the parsed time windows
with defaults `0` and the 24-hour horizon. -/
structure SolverModel where
  n : Nat
  vehicle_count : Int
  matrix : List (List Int)
  demands : List Int
  capacities : List Int
  depot_window : Int × Int
  windows : List (Int × Int)
deriving DecidableEq

/-- Construction of the solver model from already-parsed time windows. -/
def buildModel (dist : LatLng → LatLng → ℚ) (depot : LatLng)
    (stops : List Stop) (vehicle_count vehicle_capacity : Int)
    (ts te : Option String) (depotWin : Int × Int)
    (wins : List (Int × Int)) : SolverModel :=
  let points := depotStop depot ts te :: stops
  let n := points.length
  { n := n
    vehicle_count := vehicle_count
    matrix := (List.range n).map (fun i =>
      (List.range n).map (fun j => dist_mmile dist points i j))
    demands := 0 :: stops.map (fun s => max 0 s.demand)
    capacities := List.replicate vehicle_count.toNat (max 1 vehicle_capacity)
    depot_window := depotWin
    windows := wins }

/-- The loop `for i in range(1, n): start = parse_hhmm(points[i][5]) or 0;
end = parse_hhmm(points[i][6]) or horizon` over the stops, propagating the
first parse exception. -/
def parseWindows (horizon : Int) : List Stop → Except String (List (Int × Int))
  | [] => .ok []
  | s :: rest =>
    match parse_hhmm s.tw_start with
    | .error e => .error e
    | .ok st =>
      match parse_hhmm s.tw_end with
      | .error e => .error e
      | .ok en =>
        match parseWindows horizon rest with
        | .error e => .error e
        | .ok ws => .ok ((pyOr st 0, pyOr en horizon) :: ws)

/-- Matrix-cost chain `prev → node₁ → … → nodeₖ → depot(0)` used by the
solution-extraction loop (`prev` starts at the depot node `0`). -/
def chainM (m : Nat → Nat → Int) : Nat → List Nat → Int
  | prev, [] => m prev 0
  | prev, node :: rest => m prev node + chainM m node rest

/-- Extraction of one vehicle's route from the solver's node sequence: depot
nodes are skipped (`if node != 0`), dicts are built from `points`, and the
matrix cost of the chain (including the return to the depot) is accumulated. -/
def extractVehicle (m : Nat → Nat → Int) (points : List Stop)
    (nodes : List Nat) : List StopDict × Int :=
  let ns := nodes.filter (fun node => node ≠ 0)
  (ns.filterMap (fun node => (points.get? node).map stopDict),
    chainM m 0 ns)

/-- The `HAVE_OR_TOOLS` branch of `optimize_routes` up to route extraction:
`.error` when a time-window string fails to parse (depot windows first, then
the stops in order, exactly as in the source), `.ok none` when the solver
finds no solution, `.ok (some (routes, total_mmiles))` on success. -/
def ortoolsAttempt (dist : LatLng → LatLng → ℚ)
    (solver : SolverModel → Option (List (List Nat)))
    (depot : LatLng) (stops : List Stop)
    (vehicle_count vehicle_capacity : Int)
    (depot_tw_start depot_tw_end : Option String) :
    Except String (Option (List (List StopDict) × Int)) :=
  let points := depotStop depot depot_tw_start depot_tw_end :: stops
  let horizon : Int := 24 * 60
  let m := dist_mmile dist points
  match parse_hhmm depot_tw_start with
  | .error e => .error e
  | .ok ds =>
    match parse_hhmm depot_tw_end with
    | .error e => .error e
    | .ok de =>
      match parseWindows horizon stops with
      | .error e => .error e
      | .ok wins =>
        let model := buildModel dist depot stops vehicle_count
          vehicle_capacity depot_tw_start depot_tw_end
          (pyOr ds 0, pyOr de horizon) wins
        match solver model with
        | none => .ok none
        | some sol =>
          let per := (List.range vehicle_count.toNat).map
            (fun v => extractVehicle m points (sol.getD v []))
          let routes := (per.map Prod.fst).filter (fun r => !r.isEmpty)
          let total_mmiles := (per.map Prod.snd).foldl (· + ·) 0
          .ok (some (routes, total_mmiles))

/-- Tail of `optimize_routes`: the baseline walk over the raw geodesic
distance, the savings percentage (`0.0` unless `baseline_miles > 0`), and the
assembled result. -/
def finish (dist : LatLng → LatLng → ℚ) (depot : LatLng) (stops : List Stop)
    (engine : String) (routes : List (List StopDict)) (total_miles : ℚ)
    (note : Option String) : RoutingResult :=
  let baseline_miles := pyRound2 (baselineWalk dist depot depot stops)
  let savings_pct :=
    if 0 < baseline_miles then
      pyRound2 ((baseline_miles - total_miles) / baseline_miles * 100)
    else 0
  ⟨engine, routes, total_miles, baseline_miles, savings_pct, note⟩

/-- Function `optimize_routes` of optimizer.py (see the module comment for the
modelling of `haversine_miles`, OR-Tools and exceptions). -/
def optimize_routes (dist : LatLng → LatLng → ℚ) (haveOrTools : Bool)
    (solver : SolverModel → Option (List (List Nat)))
    (depot : LatLng) (stops : List Stop)
    (vehicle_count vehicle_capacity : Int)
    (depot_tw_start depot_tw_end : Option String) :
    Except String RoutingResult :=
  if stops.isEmpty then
    .ok ⟨"none", [], 0, 0, 0, some "no stops"⟩
  else if haveOrTools then
    match ortoolsAttempt dist solver depot stops vehicle_count
      vehicle_capacity depot_tw_start depot_tw_end with
    | .error e => .error e
    | .ok (some (routes, total_mmiles)) =>
      .ok (finish dist depot stops "ortools" routes
        (pyRound2 ((total_mmiles : ℚ) / 1000)) none)
    | .ok none =>
      let g := greedyBlock dist depot stops vehicle_count
      .ok (finish dist depot stops "greedy-fallback" g.1 g.2
        (some "No feasible OR-Tools solution found; using greedy fallback."))
  else
    let g := greedyBlock dist depot stops vehicle_count
    .ok (finish dist depot stops "greedy-fallback" g.1 g.2
      (some "Install OR-Tools to enforce capacity/time windows exactly."))

/-- The sequence of time-window parses performed by the constrained branch
(depot start, depot end, then each stop), reduced to success or the first
error. -/
def windowParses (ts te : Option String) (stops : List Stop) :
    Except String Unit :=
  match parse_hhmm ts with
  | .error e => .error e
  | .ok _ =>
    match parse_hhmm te with
    | .error e => .error e
    | .ok _ =>
      match parseWindows (24 * 60) stops with
      | .error e => .error e
      | .ok _ => .ok ()

/-- Modelled from the spec (§4.3: the integer-scaled matrix is "the single
source of truth for both the constrained and fallback routers' travel
costs"): the fallback's travel cost as it would be if every leg were read
from the `dist_mmile` matrix (stop `i` is node `i + 1` of `points`), summed in
integer thousandths and only then converted and rounded. -/
def fallbackMatrixTotal (dist : LatLng → LatLng → ℚ) (depot : LatLng)
    (stops : List Stop) (vehicle_count : Int) : ℚ :=
  let points := depotStop depot none none :: stops
  let m := dist_mmile dist points
  let order := greedy_order dist depot stops
  let nb := (max 1 vehicle_count).toNat
  let buckets := fillBuckets nb order
  let totalm : Int := (buckets.map (fun b => chainM m 0 (b.map (· + 1)))).foldl
    (· + ·) 0
  pyRound2 ((totalm : ℚ) / 1000)

/-! Selection-fold characterisation: the fold of `_greedy_order` keeps the
first strict minimum, i.e. the nearest candidate with earliest input index on
ties. -/

/-- Proof helper: the first element of `l` attaining the minimum of `v`,
computed by structural recursion from the right. -/
def firstMin {α : Type _} (v : α → ℚ) : List α → Option α
  | [] => none
  | a :: rest =>
    match firstMin v rest with
    | none => some a
    | some b => if v b < v a then some b else some a

theorem firstMin_cons {α : Type _} (v : α → ℚ) (a : α) (l : List α) :
    firstMin v (a :: l)
      = match firstMin v l with
        | none => some a
        | some b => if v b < v a then some b else some a := rfl

theorem firstMin_eq_none_iff {α : Type _} (v : α → ℚ) (l : List α) :
    firstMin v l = none ↔ l = [] := by
  cases l with
  | nil => simp [firstMin]
  | cons a rest =>
    rw [firstMin_cons]
    cases h : firstMin v rest with
    | none => simp
    | some b => by_cases hb : v b < v a <;> simp [hb]

theorem firstMin_split {α : Type _} (v : α → ℚ) :
    ∀ (l : List α) (m : α), firstMin v l = some m →
      ∃ l₁ l₂, l = l₁ ++ m :: l₂ ∧ (∀ q ∈ l₁, v m < v q) ∧
        (∀ q ∈ l₂, v m ≤ v q) := by
  intro l
  induction l with
  | nil => intro m hm; simp [firstMin] at hm
  | cons a rest ih =>
    intro m hm
    rw [firstMin_cons] at hm
    cases h : firstMin v rest with
    | none =>
      rw [h] at hm
      obtain rfl : a = m := by injection hm
      have hrest : rest = [] := (firstMin_eq_none_iff v rest).1 h
      subst hrest
      exact ⟨[], [], rfl, by simp, by simp⟩
    | some b =>
      rw [h] at hm
      dsimp only at hm
      obtain ⟨l₁, l₂, rfl, h₁, h₂⟩ := ih b h
      by_cases hba : v b < v a
      · rw [if_pos hba] at hm
        obtain rfl : b = m := by injection hm
        refine ⟨a :: l₁, l₂, by simp, ?_, h₂⟩
        intro q hq
        rcases List.mem_cons.1 hq with rfl | hq
        · exact hba
        · exact h₁ q hq
      · rw [if_neg hba] at hm
        obtain rfl : a = m := by injection hm
        refine ⟨[], l₁ ++ b :: l₂, by simp, by simp, ?_⟩
        intro q hq
        have hab : v a ≤ v b := not_lt.1 hba
        rcases List.mem_append.1 hq with hq | hq
        · exact le_of_lt (lt_of_le_of_lt hab (h₁ q hq))
        · rcases List.mem_cons.1 hq with rfl | hq
          · exact hab
          · exact le_trans hab (h₂ q hq)

theorem foldl_selStep_some (dist : LatLng → LatLng → ℚ) (curr : LatLng) :
    ∀ (l : List (Nat × Stop)) (bi : Nat) (bd : ℚ),
      l.foldl (selStep dist curr) (some (bi, bd)) =
        match firstMin (fun p => dist curr p.2.pos) l with
        | none => some (bi, bd)
        | some m =>
          if dist curr m.2.pos < bd then some (m.1, dist curr m.2.pos)
          else some (bi, bd) := by
  intro l
  induction l with
  | nil => intro bi bd; rfl
  | cons a l ih =>
    intro bi bd
    rw [List.foldl_cons, firstMin_cons]
    by_cases h1 : dist curr a.2.pos < bd
    · rw [show selStep dist curr (some (bi, bd)) a
          = some (a.1, dist curr a.2.pos) from by
        simp [selStep, h1]]
      rw [ih]
      cases h : firstMin (fun p => dist curr p.2.pos) l with
      | none => simp [h1]
      | some b =>
        by_cases h2 : dist curr b.2.pos < dist curr a.2.pos
        · have h3 : dist curr b.2.pos < bd := lt_trans h2 h1
          simp [h2, h3]
        · simp [h2, h1]
    · rw [show selStep dist curr (some (bi, bd)) a = some (bi, bd) from by
        simp [selStep, h1]]
      rw [ih]
      cases h : firstMin (fun p => dist curr p.2.pos) l with
      | none => simp [h1]
      | some b =>
        by_cases h2 : dist curr b.2.pos < dist curr a.2.pos
        · simp [h2]
        · have h3 : ¬ dist curr b.2.pos < bd :=
            not_lt.2 (le_trans (not_lt.1 h1) (not_lt.1 h2))
          simp [h2, h1, h3]

theorem foldl_bestGuard (dist : LatLng → LatLng → ℚ) (curr : LatLng)
    (visited : List Nat) :
    ∀ (l : List (Nat × Stop)) (acc : Option (Nat × ℚ)),
      l.foldl
          (fun best p => if p.1 ∈ visited then best
            else selStep dist curr best p) acc
        = (l.filter (fun p => decide (p.1 ∉ visited))).foldl
            (selStep dist curr) acc := by
  intro l
  induction l with
  | nil => intro acc; rfl
  | cons a l ih =>
    intro acc
    rw [List.foldl_cons, List.filter_cons]
    by_cases h : a.1 ∈ visited
    · rw [if_pos h, ih]
      simp [h]
    · rw [if_neg h, ih]
      simp [h]

theorem bestStep_eq (dist : LatLng → LatLng → ℚ) (curr : LatLng)
    (stops : List Stop) (visited : List Nat) :
    bestStep dist curr stops visited
      = (firstMin (fun p => dist curr p.2.pos)
          (stops.enum.filter (fun p => decide (p.1 ∉ visited)))).map
          (fun m => (m.1, dist curr m.2.pos)) := by
  rw [bestStep, foldl_bestGuard]
  generalize (stops.enum.filter fun p => decide (p.1 ∉ visited)) = c
  cases c with
  | nil => rfl
  | cons a l =>
    rw [List.foldl_cons, firstMin_cons]
    rw [show selStep dist curr none a
        = some (a.1, dist curr a.2.pos) from rfl]
    rw [foldl_selStep_some]
    cases h : firstMin (fun p => dist curr p.2.pos) l with
    | none => simp
    | some b =>
      by_cases h2 : dist curr b.2.pos < dist curr a.2.pos
      · simp [h2]
      · simp [h2]

theorem fst_le_of_mem_enumFrom {α : Type _} :
    ∀ {l : List α} {n : Nat} {q : Nat × α}, q ∈ l.enumFrom n → n ≤ q.1 := by
  intro l
  induction l with
  | nil => intro n q h; simp [List.enumFrom] at h
  | cons a l ih =>
    intro n q h
    rcases List.mem_cons.1 h with rfl | h
    · exact le_refl n
    · exact le_trans (Nat.le_succ n) (ih h)

theorem pairwise_fst_lt_enumFrom {α : Type _} (l : List α) :
    ∀ (n : Nat), (l.enumFrom n).Pairwise (fun p q => p.1 < q.1) := by
  induction l with
  | nil => intro n; simp [List.enumFrom]
  | cons a l ih =>
    intro n
    refine List.Pairwise.cons ?_ (ih (n + 1))
    intro q hq
    exact lt_of_lt_of_le (Nat.lt_succ_self n) (fst_le_of_mem_enumFrom hq)

theorem pairwise_fst_lt_enum {α : Type _} (l : List α) :
    l.enum.Pairwise (fun p q => p.1 < q.1) :=
  pairwise_fst_lt_enumFrom l 0

theorem bestStep_some (dist : LatLng → LatLng → ℚ) (curr : LatLng)
    (stops : List Stop) (visited : List Nat) (i : Nat) (d : ℚ)
    (h : bestStep dist curr stops visited = some (i, d)) :
    ∃ s, stops.get? i = some s ∧ i ∉ visited ∧ d = dist curr s.pos ∧
      (∀ j t, stops.get? j = some t → j ∉ visited →
        dist curr s.pos ≤ dist curr t.pos) ∧
      (∀ j t, j < i → stops.get? j = some t → j ∉ visited →
        dist curr s.pos < dist curr t.pos) := by
  rw [bestStep_eq] at h
  cases hm : firstMin (fun p => dist curr p.2.pos)
      (stops.enum.filter (fun p => decide (p.1 ∉ visited))) with
  | none => rw [hm] at h; simp at h
  | some m =>
    rw [hm] at h
    simp only [Option.map_some'] at h
    have h' : (m.1, dist curr m.2.pos) = (i, d) := by injection h
    have h1 : m.1 = i := congrArg Prod.fst h'
    have h2 : dist curr m.2.pos = d := congrArg Prod.snd h'
    obtain ⟨l₁, l₂, hsplit, hlt, hle⟩ := firstMin_split _ _ m hm
    have hmc : m ∈ stops.enum.filter (fun p => decide (p.1 ∉ visited)) := by
      rw [hsplit]
      exact List.mem_append.2 (Or.inr (List.mem_cons_self _ _))
    obtain ⟨hme, hmv⟩ := List.mem_filter.1 hmc
    have hget : stops.get? m.1 = some m.2 := List.mem_enum_iff_get?.1 hme
    have hnv : m.1 ∉ visited := by simpa using hmv
    refine ⟨m.2, h1 ▸ hget, h1 ▸ hnv, h2.symm, ?_, ?_⟩
    · intro j t hjget hjnv
      have hjc : (j, t) ∈ stops.enum.filter
          (fun p => decide (p.1 ∉ visited)) :=
        List.mem_filter.2 ⟨List.mem_enum_iff_get?.2 hjget, by simpa⟩
      rw [hsplit] at hjc
      rcases List.mem_append.1 hjc with hq | hq
      · exact le_of_lt (hlt _ hq)
      · rcases List.mem_cons.1 hq with hq | hq
        · obtain rfl : t = m.2 := congrArg Prod.snd hq
          exact le_refl _
        · exact hle _ hq
    · intro j t hji hjget hjnv
      have hpw := (pairwise_fst_lt_enum stops).filter
        (fun p => decide (p.1 ∉ visited))
      rw [hsplit] at hpw
      obtain ⟨-, hpw2, hpw3⟩ := List.pairwise_append.1 hpw
      have hml₂ : ∀ q ∈ l₂, m.1 < q.1 := (List.pairwise_cons.1 hpw2).1
      have hjc : (j, t) ∈ stops.enum.filter
          (fun p => decide (p.1 ∉ visited)) :=
        List.mem_filter.2 ⟨List.mem_enum_iff_get?.2 hjget, by simpa⟩
      rw [hsplit] at hjc
      rcases List.mem_append.1 hjc with hq | hq
      · exact hlt _ hq
      · rcases List.mem_cons.1 hq with hq | hq
        · exfalso
          have : j = m.1 := congrArg Prod.fst hq
          omega
        · exfalso
          have := hml₂ _ hq
          simp at this
          omega

theorem bestStep_none_covered (dist : LatLng → LatLng → ℚ) (curr : LatLng)
    (stops : List Stop) (visited : List Nat)
    (h : bestStep dist curr stops visited = none) :
    ∀ j t, stops.get? j = some t → j ∈ visited := by
  rw [bestStep_eq] at h
  have hfm : firstMin (fun p => dist curr p.2.pos)
      (stops.enum.filter (fun p => decide (p.1 ∉ visited))) = none := by
    cases hm : firstMin (fun p => dist curr p.2.pos)
        (stops.enum.filter (fun p => decide (p.1 ∉ visited))) with
    | none => rfl
    | some m => rw [hm] at h; simp at h
  have hc := (firstMin_eq_none_iff _ _).1 hfm
  intro j t hget
  by_contra hnv
  have hjc : (j, t) ∈ stops.enum.filter (fun p => decide (p.1 ∉ visited)) :=
    List.mem_filter.2 ⟨List.mem_enum_iff_get?.2 hget, by simpa⟩
  rw [hc] at hjc
  simp at hjc

/-! Nearest-neighbour tour characterisation of `_greedy_order` (spec §4.4:
repeatedly select the nearest not-yet-visited stop from the current position,
breaking distance ties by earliest input index). -/

/-- Specification predicate: `o` is the nearest-neighbour tour of the stops
not yet in `visited`, starting from `curr`, selecting at each step the
unvisited stop of minimal distance and, among equidistant stops, the one
earliest in input order. -/
inductive IsNNTour (dist : LatLng → LatLng → ℚ) (stops : List Stop) :
    LatLng → List Nat → List Nat → Prop
  | nil (curr : LatLng) (visited : List Nat)
      (hall : ∀ j t, stops.get? j = some t → j ∈ visited) :
      IsNNTour dist stops curr visited []
  | cons (curr : LatLng) (visited : List Nat) (i : Nat) (s : Stop)
      (rest : List Nat)
      (hget : stops.get? i = some s) (hnv : i ∉ visited)
      (hmin : ∀ j t, stops.get? j = some t → j ∉ visited →
        dist curr s.pos ≤ dist curr t.pos)
      (htie : ∀ j t, j < i → stops.get? j = some t → j ∉ visited →
        dist curr s.pos < dist curr t.pos)
      (htl : IsNNTour dist stops s.pos (i :: visited) rest) :
      IsNNTour dist stops curr visited (i :: rest)

theorem greedyAux_isNNTour (dist : LatLng → LatLng → ℚ) (stops : List Stop) :
    ∀ (fuel : Nat) (curr : LatLng) (visited : List Nat),
      ((List.range stops.length).filter
        (fun j => decide (j ∉ visited))).length = fuel →
      IsNNTour dist stops curr visited
        (greedyAux dist stops fuel curr visited) := by
  intro fuel
  induction fuel with
  | zero =>
    intro curr visited hlen
    have hnil := List.length_eq_zero.1 hlen
    refine IsNNTour.nil curr visited ?_
    intro j t hget
    by_contra hnv
    have hjr : j ∈ List.range stops.length :=
      List.mem_range.2 (List.get?_eq_some.1 hget).1
    have : j ∈ (List.range stops.length).filter
        (fun j => decide (j ∉ visited)) :=
      List.mem_filter.2 ⟨hjr, by simpa⟩
    rw [hnil] at this
    simp at this
  | succ fuel ih =>
    intro curr visited hlen
    have hne : ((List.range stops.length).filter
        (fun j => decide (j ∉ visited))) ≠ [] := by
      intro hnil
      rw [hnil] at hlen
      simp at hlen
    cases hb : bestStep dist curr stops visited with
    | none =>
      exfalso
      obtain ⟨j, hj⟩ := List.exists_mem_of_ne_nil _ hne
      obtain ⟨hjr, hjv⟩ := List.mem_filter.1 hj
      have hjlt : j < stops.length := List.mem_range.1 hjr
      have hjnv : j ∉ visited := by simpa using hjv
      exact hjnv (bestStep_none_covered dist curr stops visited hb j _
        (List.get?_eq_get hjlt) )
    | some id =>
      obtain ⟨i, d⟩ := id
      obtain ⟨s, hget, hnv, hd, hmin, htie⟩ :=
        bestStep_some dist curr stops visited i d hb
      have hstep : greedyAux dist stops (fuel + 1) curr visited
          = i :: greedyAux dist stops fuel s.pos (i :: visited) := by
        rw [greedyAux, hb]
        dsimp only
        rw [hget]
      rw [hstep]
      refine IsNNTour.cons curr visited i s _ hget hnv hmin htie ?_
      apply ih
      have hfilter : (List.range stops.length).filter
            (fun j => decide (j ∉ i :: visited))
          = ((List.range stops.length).filter
            (fun j => decide (j ∉ visited))).filter (fun j => j != i) := by
        rw [List.filter_filter]
        apply List.filter_congr
        intro x _
        by_cases hx1 : x ∈ visited <;> by_cases hx2 : x = i <;>
          simp [hx1, hx2, List.mem_cons]
      have hnd : ((List.range stops.length).filter
          (fun j => decide (j ∉ visited))).Nodup :=
        (List.nodup_range _).filter _
      have hmemi : i ∈ (List.range stops.length).filter
          (fun j => decide (j ∉ visited)) := by
        refine List.mem_filter.2 ⟨?_, by simpa⟩
        exact List.mem_range.2 (List.get?_eq_some.1 hget).1
      rw [hfilter, ← hnd.erase_eq_filter i, List.length_erase_of_mem hmemi,
        hlen]
      omega

theorem isNNTour_props (dist : LatLng → LatLng → ℚ) (stops : List Stop)
    {curr : LatLng} {visited o : List Nat}
    (h : IsNNTour dist stops curr visited o) :
    o.Nodup ∧ (∀ i ∈ o, (∃ s, stops.get? i = some s) ∧ i ∉ visited) ∧
      (∀ j t, stops.get? j = some t → j ∉ visited → j ∈ o) := by
  induction h with
  | nil curr visited hall =>
    refine ⟨List.nodup_nil, by simp, ?_⟩
    intro j t hget hnv
    exact absurd (hall j t hget) hnv
  | cons curr visited i s rest hget hnv hmin htie htl ihtl =>
    obtain ⟨hnd, hmem, hcov⟩ := ihtl
    refine ⟨?_, ?_, ?_⟩
    · refine List.Nodup.cons ?_ hnd
      intro hi
      have := (hmem i hi).2
      simp at this
    · intro k hk
      rcases List.mem_cons.1 hk with rfl | hk
      · exact ⟨⟨s, hget⟩, hnv⟩
      · obtain ⟨hex, hkv⟩ := hmem k hk
        refine ⟨hex, ?_⟩
        intro hkv'
        exact hkv (List.mem_cons.2 (Or.inr hkv'))
    · intro j t hjget hjnv
      by_cases hji : j = i
      · exact hji ▸ List.mem_cons_self _ _
      · refine List.mem_cons.2 (Or.inr ?_)
        refine hcov j t hjget ?_
        intro hjv
        rcases List.mem_cons.1 hjv with hji' | hjv'
        · exact hji hji'
        · exact hjnv hjv'

theorem greedy_order_isNNTour (dist : LatLng → LatLng → ℚ) (depot : LatLng)
    (stops : List Stop) :
    IsNNTour dist stops depot [] (greedy_order dist depot stops) := by
  apply greedyAux_isNNTour
  simp

theorem greedy_order_perm (dist : LatLng → LatLng → ℚ) (depot : LatLng)
    (stops : List Stop) :
    (greedy_order dist depot stops).Perm (List.range stops.length) := by
  obtain ⟨hnd, hmem, hcov⟩ :=
    isNNTour_props dist stops (greedy_order_isNNTour dist depot stops)
  apply List.Subperm.antisymm
  · apply List.subperm_of_subset hnd
    intro i hi
    obtain ⟨⟨s, hs⟩, -⟩ := hmem i hi
    exact List.mem_range.2 (List.get?_eq_some.1 hs).1
  · apply List.subperm_of_subset (List.nodup_range _)
    intro j hj
    have hjlt := List.mem_range.1 hj
    exact hcov j _ (List.get?_eq_get hjlt) (by simp)

theorem greedy_order_length (dist : LatLng → LatLng → ℚ) (depot : LatLng)
    (stops : List Stop) :
    (greedy_order dist depot stops).length = stops.length := by
  have := (greedy_order_perm dist depot stops).length_eq
  simpa using this

/-! Round-robin bucket distribution: the fold of the fallback block equals the
partition of the tour by position modulo the bucket count, and the buckets
together are a permutation of the tour. -/

theorem replicate_getD (n k : Nat) :
    (List.replicate n ([] : List Nat)).getD k [] = [] := by
  induction n generalizing k with
  | zero => cases k <;> rfl
  | succ n ih =>
    cases k with
    | zero => rfl
    | succ k => exact ih k

theorem map_getD_range (bs : List (List Nat)) :
    (List.range bs.length).map (fun k => bs.getD k []) = bs := by
  induction bs with
  | nil => rfl
  | cons b bs ih =>
    rw [List.length_cons, List.range_succ_eq_map, List.map_cons, List.map_map]
    congr 1

theorem fillAux (nb : Nat) :
    ∀ (l : List Nat) (s0 : Nat) (bs : List (List Nat)), bs.length = nb →
      (l.enumFrom s0).foldl (fun bs p => appendAt bs (p.1 % nb) p.2) bs
        = (List.range nb).map (fun k =>
            bs.getD k [] ++
            ((l.enumFrom s0).filter
              (fun p => decide (p.1 % nb = k))).map Prod.snd) := by
  intro l
  induction l with
  | nil =>
    intro s0 bs hbs
    simp only [List.enumFrom, List.foldl_nil, List.filter_nil, List.map_nil,
      List.append_nil]
    rw [← hbs, map_getD_range]
  | cons a l ih =>
    intro s0 bs hbs
    rw [List.enumFrom_cons, List.foldl_cons]
    have hlen' : (appendAt bs (s0 % nb) a).length = nb := by
      rw [appendAt, List.length_set, hbs]
    rw [ih (s0 + 1) _ hlen']
    apply List.map_congr_left
    intro k hk
    have hklt : k < nb := List.mem_range.1 hk
    rw [List.filter_cons]
    by_cases hek : s0 % nb = k
    · rw [if_pos (by simpa using hek)]
      have hgd : (appendAt bs (s0 % nb) a).getD k []
          = bs.getD k [] ++ [a] := by
        rw [appendAt, hek]
        have hk' : k < bs.length := by rw [hbs]; exact hklt
        show ((bs.set k (bs.getD k [] ++ [a])).get? k).getD [] = _
        rw [List.get?_set_eq_of_lt _ hk']
        rfl
      rw [hgd, List.map_cons, List.append_assoc, List.singleton_append]
    · rw [if_neg (by simpa using hek)]
      have hgd : (appendAt bs (s0 % nb) a).getD k [] = bs.getD k [] := by
        rw [appendAt]
        show ((bs.set (s0 % nb) _).get? k).getD [] = (bs.get? k).getD []
        rw [List.get?_set_ne _ _ hek]
      rw [hgd]

theorem fillBuckets_eq (nb : Nat) (hnb : 0 < nb) (order : List Nat) :
    fillBuckets nb order
      = (List.range nb).map (fun k =>
          (order.enum.filter (fun p => decide (p.1 % nb = k))).map
            Prod.snd) := by
  rw [fillBuckets, List.enum_eq_enumFrom,
    fillAux nb order 0 _ (List.length_replicate nb [])]
  apply List.map_congr_left
  intro k _
  rw [replicate_getD, List.nil_append]

theorem length_fillBuckets (nb : Nat) (hnb : 0 < nb) (order : List Nat) :
    (fillBuckets nb order).length = nb := by
  rw [fillBuckets_eq nb hnb order, List.length_map, List.length_range]

theorem sum_range_ite (j : Nat) (c : Nat) :
    ∀ (nb : Nat),
      ((List.range nb).map (fun k => if j = k then c else 0)).sum
        = if j < nb then c else 0 := by
  intro nb
  induction nb with
  | zero => simp
  | succ nb ih =>
    rw [List.range_succ, List.map_append, List.sum_append, ih]
    by_cases hj : j = nb
    · subst hj
      simp [Nat.lt_irrefl]
    · by_cases hlt : j < nb
      · have : j < nb + 1 := Nat.lt_succ_of_lt hlt
        simp [hj, hlt, this]
      · have : ¬ j < nb + 1 := by omega
        simp [hj, hlt, this]

theorem classes_flatten_perm {α : Type _} [DecidableEq α] (f : α → Nat)
    (nb : Nat) (l : List α) (h : ∀ a ∈ l, f a < nb) :
    ((List.range nb).map (fun k =>
      l.filter (fun a => decide (f a = k)))).flatten.Perm l := by
  rw [List.perm_iff_count]
  intro x
  rw [List.count_flatten, List.map_map]
  have hmap : (List.range nb).map
        (List.count x ∘ fun k => l.filter (fun a => decide (f a = k)))
      = (List.range nb).map (fun k => if f x = k then l.count x else 0) := by
    apply List.map_congr_left
    intro k _
    show (l.filter (fun a => decide (f a = k))).count x = _
    by_cases hfx : f x = k
    · rw [if_pos hfx, List.count_filter (by simpa using hfx)]
    · rw [if_neg hfx]
      apply List.count_eq_zero_of_not_mem
      intro hmem
      exact hfx (by simpa using (List.mem_filter.1 hmem).2)
  rw [hmap, sum_range_ite]
  by_cases hx : x ∈ l
  · rw [if_pos (h x hx)]
  · rw [List.count_eq_zero_of_not_mem hx]
    simp

theorem flatten_filter_nonEmpty {α : Type _} (L : List (List α)) :
    (L.filter (fun r => !r.isEmpty)).flatten = L.flatten := by
  induction L with
  | nil => rfl
  | cons r L ih =>
    rw [List.filter_cons]
    cases r with
    | nil => simpa using ih
    | cons a r => simpa using ih

theorem filterMap_get?_range {α β : Type _} (g : α → β) (l : List α) :
    (List.range l.length).filterMap (fun i => (l.get? i).map g)
      = l.map g := by
  induction l with
  | nil => rfl
  | cons a l ih =>
    rw [List.length_cons, List.range_succ_eq_map, List.filterMap_cons]
    simp only [List.get?_cons_zero, Option.map_some']
    rw [List.filterMap_map]
    have hcomp : ((fun i => ((a :: l).get? i).map g) ∘ Nat.succ)
        = fun i => (l.get? i).map g := by
      funext i
      rfl
    rw [hcomp, ih]
    rfl

/-! Properties of the assembled fallback block and branch analysis of
`optimize_routes`. -/

theorem max_one_toNat_pos (vc : Int) : 0 < (max 1 vc).toNat := by
  have h1 : (1 : Int) ≤ max 1 vc := le_max_left _ _
  omega

theorem greedyBlock_fst (dist : LatLng → LatLng → ℚ) (depot : LatLng)
    (stops : List Stop) (vc : Int) :
    (greedyBlock dist depot stops vc).1
      = ((fillBuckets (max 1 vc).toNat
          (greedy_order dist depot stops)).map (mkRoute stops)).filter
          (fun r => !r.isEmpty) := rfl

theorem greedyBlock_snd (dist : LatLng → LatLng → ℚ) (depot : LatLng)
    (stops : List Stop) (vc : Int) :
    (greedyBlock dist depot stops vc).2
      = pyRound2 (greedyTotal dist depot stops (max 1 vc).toNat) := rfl

theorem greedyBlock_flatten_perm (dist : LatLng → LatLng → ℚ)
    (depot : LatLng) (stops : List Stop) (vc : Int) :
    ((greedyBlock dist depot stops vc).1).flatten.Perm
      (stops.map stopDict) := by
  have hnb := max_one_toNat_pos vc
  rw [greedyBlock_fst, flatten_filter_nonEmpty]
  have h2 : (fillBuckets (max 1 vc).toNat
        (greedy_order dist depot stops)).map (mkRoute stops)
      = (fillBuckets (max 1 vc).toNat (greedy_order dist depot stops)).map
          (List.filterMap (fun i => (stops.get? i).map stopDict)) := rfl
  rw [h2, ← List.filterMap_flatten]
  have hperm : (fillBuckets (max 1 vc).toNat
      (greedy_order dist depot stops)).flatten.Perm
      (greedy_order dist depot stops) := by
    rw [fillBuckets_eq _ hnb]
    rw [show (List.range (max 1 vc).toNat).map (fun k =>
          ((greedy_order dist depot stops).enum.filter
            (fun p => decide (p.1 % (max 1 vc).toNat = k))).map Prod.snd)
        = ((List.range (max 1 vc).toNat).map (fun k =>
            (greedy_order dist depot stops).enum.filter
              (fun p => decide (p.1 % (max 1 vc).toNat = k)))).map
            (List.map Prod.snd) from (List.map_map _ _ _).symm]
    rw [← List.map_flatten]
    have hcl := classes_flatten_perm (fun p => p.1 % (max 1 vc).toNat)
      (max 1 vc).toNat (greedy_order dist depot stops).enum
      (fun a _ => Nat.mod_lt _ hnb)
    have := hcl.map Prod.snd
    rw [List.enum_map_snd] at this
    exact this
  refine (hperm.filterMap _).trans ?_
  refine ((greedy_order_perm dist depot stops).filterMap _).trans ?_
  rw [filterMap_get?_range]

theorem countP_range_lt (m : Nat) :
    ∀ (nb : Nat),
      (List.range nb).countP (fun k => decide (k < m)) = min m nb := by
  intro nb
  induction nb with
  | zero => simp
  | succ nb ih =>
    rw [List.range_succ, List.countP_append, ih, List.countP_cons]
    by_cases h : nb < m
    · simp only [List.countP_nil, h, decide_true_eq_true, if_true]
      omega
    · simp only [List.countP_nil, h]
      norm_num
      omega

theorem greedyBlock_routes_length (dist : LatLng → LatLng → ℚ)
    (depot : LatLng) (stops : List Stop) (vc : Int) :
    ((greedyBlock dist depot stops vc).1).length
      = min (max 1 vc).toNat stops.length := by
  have hnb := max_one_toNat_pos vc
  obtain ⟨-, hmem, -⟩ :=
    isNNTour_props dist stops (greedy_order_isNNTour dist depot stops)
  have hol : (greedy_order dist depot stops).length = stops.length :=
    greedy_order_length dist depot stops
  rw [greedyBlock_fst, fillBuckets_eq _ hnb, List.map_map,
    ← List.countP_eq_length_filter, List.countP_map]
  have hcongr : ∀ k ∈ List.range (max 1 vc).toNat,
      (((fun r => !List.isEmpty r) ∘ (mkRoute stops ∘ fun k =>
        ((greedy_order dist depot stops).enum.filter
          (fun p => decide (p.1 % (max 1 vc).toNat = k))).map Prod.snd)) k
        = true)
        ↔ (decide (k < min (max 1 vc).toNat stops.length) = true) := by
    intro k hk
    have hklt : k < (max 1 vc).toNat := List.mem_range.1 hk
    simp only [Function.comp_apply, Bool.not_eq_true', decide_eq_true_eq]
    constructor
    · intro hnonempty
      have hb : ((greedy_order dist depot stops).enum.filter
          (fun p => decide (p.1 % (max 1 vc).toNat = k))) ≠ [] := by
        intro hnil
        rw [show mkRoute stops (((greedy_order dist depot stops).enum.filter
            (fun p => decide (p.1 % (max 1 vc).toNat = k))).map Prod.snd)
            = [] from by rw [hnil]; rfl] at hnonempty
        simp at hnonempty
      obtain ⟨p, hp⟩ := List.exists_mem_of_ne_nil _ hb
      obtain ⟨hpe, hpk⟩ := List.mem_filter.1 hp
      have hplt : p.1 < (greedy_order dist depot stops).length := by
        have := List.mem_enum_iff_get?.1 hpe
        exact (List.get?_eq_some.1 this).1
      have hk' : k = p.1 % (max 1 vc).toNat := by
        have := of_decide_eq_true hpk
        omega
      have : k ≤ p.1 := hk' ▸ Nat.mod_le _ _
      omega
    · intro hkmin
      have hkn : k < stops.length := by omega
      have hko : k < (greedy_order dist depot stops).length := by omega
      have hmemk : (k, (greedy_order dist depot stops).get ⟨k, hko⟩)
          ∈ (greedy_order dist depot stops).enum :=
        List.mem_enum_iff_get?.2 (List.get?_eq_get hko)
      have hkmod : k % (max 1 vc).toNat = k := Nat.mod_eq_of_lt hklt
      have hinb : (k, (greedy_order dist depot stops).get ⟨k, hko⟩)
          ∈ (greedy_order dist depot stops).enum.filter
            (fun p => decide (p.1 % (max 1 vc).toNat = k)) :=
        List.mem_filter.2 ⟨hmemk, by simp [hkmod]⟩
      have hi : (greedy_order dist depot stops).get ⟨k, hko⟩
          ∈ greedy_order dist depot stops := List.get_mem _ _ _
      obtain ⟨⟨s, hs⟩, -⟩ := hmem _ hi
      have : stopDict s ∈ mkRoute stops
          (((greedy_order dist depot stops).enum.filter
            (fun p => decide (p.1 % (max 1 vc).toNat = k))).map Prod.snd) := by
        rw [mkRoute]
        apply List.mem_filterMap.2
        refine ⟨(greedy_order dist depot stops).get ⟨k, hko⟩, ?_, ?_⟩
        · exact List.mem_map.2 ⟨_, hinb, rfl⟩
        · rw [hs]
          rfl
      cases hmr : mkRoute stops
          (((greedy_order dist depot stops).enum.filter
            (fun p => decide (p.1 % (max 1 vc).toNat = k))).map Prod.snd) with
      | nil =>
        rw [hmr] at this
        simp at this
      | cons x xs => rfl
  rw [List.countP_congr hcongr, countP_range_lt]
  omega

theorem finish_engine (dist : LatLng → LatLng → ℚ) (depot : LatLng)
    (stops : List Stop) (e : String) (rts : List (List StopDict)) (t : ℚ)
    (n : Option String) : (finish dist depot stops e rts t n).engine = e := rfl

theorem finish_routes (dist : LatLng → LatLng → ℚ) (depot : LatLng)
    (stops : List Stop) (e : String) (rts : List (List StopDict)) (t : ℚ)
    (n : Option String) : (finish dist depot stops e rts t n).routes = rts :=
  rfl

theorem finish_total (dist : LatLng → LatLng → ℚ) (depot : LatLng)
    (stops : List Stop) (e : String) (rts : List (List StopDict)) (t : ℚ)
    (n : Option String) :
    (finish dist depot stops e rts t n).total_miles = t := rfl

theorem finish_baseline (dist : LatLng → LatLng → ℚ) (depot : LatLng)
    (stops : List Stop) (e : String) (rts : List (List StopDict)) (t : ℚ)
    (n : Option String) :
    (finish dist depot stops e rts t n).baseline_miles
      = pyRound2 (baselineWalk dist depot depot stops) := rfl

theorem finish_savings (dist : LatLng → LatLng → ℚ) (depot : LatLng)
    (stops : List Stop) (e : String) (rts : List (List StopDict)) (t : ℚ)
    (n : Option String) :
    (finish dist depot stops e rts t n).savings_pct
      = (if 0 < pyRound2 (baselineWalk dist depot depot stops) then
          pyRound2 ((pyRound2 (baselineWalk dist depot depot stops) - t)
            / pyRound2 (baselineWalk dist depot depot stops) * 100)
        else 0) := rfl

theorem isEmpty_false_of_ne_nil {stops : List Stop} (hne : stops ≠ []) :
    stops.isEmpty = false := by
  cases stops with
  | nil => exact absurd rfl hne
  | cons a l => rfl

theorem optimize_routes_unavailable (dist : LatLng → LatLng → ℚ)
    (solver : SolverModel → Option (List (List Nat)))
    (depot : LatLng) (stops : List Stop) (vc cap : Int)
    (ts te : Option String) (hne : stops ≠ []) :
    optimize_routes dist false solver depot stops vc cap ts te
      = .ok (finish dist depot stops "greedy-fallback"
          (greedyBlock dist depot stops vc).1
          (greedyBlock dist depot stops vc).2
          (some "Install OR-Tools to enforce capacity/time windows exactly."))
      := by
  cases stops with
  | nil => exact absurd rfl hne
  | cons a l => rfl

theorem optimize_routes_available (dist : LatLng → LatLng → ℚ)
    (solver : SolverModel → Option (List (List Nat)))
    (depot : LatLng) (stops : List Stop) (vc cap : Int)
    (ts te : Option String) (hne : stops ≠ []) :
    optimize_routes dist true solver depot stops vc cap ts te
      = match ortoolsAttempt dist solver depot stops vc cap ts te with
        | .error e => .error e
        | .ok (some (routes, total_mmiles)) =>
          .ok (finish dist depot stops "ortools" routes
            (pyRound2 ((total_mmiles : ℚ) / 1000)) none)
        | .ok none =>
          .ok (finish dist depot stops "greedy-fallback"
            (greedyBlock dist depot stops vc).1
            (greedyBlock dist depot stops vc).2
            (some
              "No feasible OR-Tools solution found; using greedy fallback."))
      := by
  cases stops with
  | nil => exact absurd rfl hne
  | cons a l => rfl

theorem optimize_ok_cases (dist : LatLng → LatLng → ℚ) (hot : Bool)
    (solver : SolverModel → Option (List (List Nat)))
    (depot : LatLng) (stops : List Stop) (vc cap : Int)
    (ts te : Option String) (r : RoutingResult)
    (hne : stops ≠ [])
    (h : optimize_routes dist hot solver depot stops vc cap ts te = .ok r) :
    (∃ routes mm, hot = true ∧
        ortoolsAttempt dist solver depot stops vc cap ts te
          = .ok (some (routes, mm)) ∧
        r = finish dist depot stops "ortools" routes
          (pyRound2 ((mm : ℚ) / 1000)) none) ∨
    (∃ note, r = finish dist depot stops "greedy-fallback"
        (greedyBlock dist depot stops vc).1
        (greedyBlock dist depot stops vc).2 (some note)) := by
  cases hot with
  | false =>
    rw [optimize_routes_unavailable dist solver depot stops vc cap ts te hne]
      at h
    right
    refine ⟨"Install OR-Tools to enforce capacity/time windows exactly.", ?_⟩
    injection h with h'
    exact h'.symm
  | true =>
    rw [optimize_routes_available dist solver depot stops vc cap ts te hne]
      at h
    cases hoa : ortoolsAttempt dist solver depot stops vc cap ts te with
    | error e =>
      rw [hoa] at h
      exact Except.noConfusion h
    | ok v =>
      rw [hoa] at h
      cases v with
      | none =>
        right
        refine
          ⟨"No feasible OR-Tools solution found; using greedy fallback.", ?_⟩
        injection h with h'
        exact h'.symm
      | some rm =>
        left
        obtain ⟨routes, mm⟩ := rm
        refine ⟨routes, mm, rfl, rfl, ?_⟩
        injection h with h'
        exact h'.symm

theorem ortoolsAttempt_error_iff (dist : LatLng → LatLng → ℚ)
    (solver : SolverModel → Option (List (List Nat)))
    (depot : LatLng) (stops : List Stop) (vc cap : Int)
    (ts te : Option String) (e : String) :
    ortoolsAttempt dist solver depot stops vc cap ts te = .error e
      ↔ windowParses ts te stops = .error e := by
  rw [ortoolsAttempt, windowParses]
  cases h1 : parse_hhmm ts with
  | error e1 => simp
  | ok v1 =>
    cases h2 : parse_hhmm te with
    | error e2 => simp
    | ok v2 =>
      cases h3 : parseWindows (24 * 60) stops with
      | error e3 => simp
      | ok ws =>
        dsimp only
        cases hsol : solver (buildModel dist depot stops vc cap ts te
            (pyOr v1 0, pyOr v2 (24 * 60)) ws) with
        | none => simp
        | some sol => simp

theorem optimize_error_iff (dist : LatLng → LatLng → ℚ) (hot : Bool)
    (solver : SolverModel → Option (List (List Nat)))
    (depot : LatLng) (stops : List Stop) (vc cap : Int)
    (ts te : Option String) (hne : stops ≠ []) :
    (∃ e, optimize_routes dist hot solver depot stops vc cap ts te
      = .error e)
      ↔ (hot = true ∧ ∃ e, windowParses ts te stops = .error e) := by
  cases hot with
  | false =>
    rw [optimize_routes_unavailable dist solver depot stops vc cap ts te hne]
    simp
  | true =>
    rw [optimize_routes_available dist solver depot stops vc cap ts te hne]
    simp only [true_and]
    cases hoa : ortoolsAttempt dist solver depot stops vc cap ts te with
    | error e0 =>
      constructor
      · intro _
        exact ⟨e0, (ortoolsAttempt_error_iff dist solver depot stops vc cap
          ts te e0).1 hoa⟩
      · intro _
        exact ⟨e0, rfl⟩
    | ok v =>
      constructor
      · intro hex
        obtain ⟨e, he⟩ := hex
        exfalso
        cases v with
        | none => exact Except.noConfusion he
        | some rm =>
          obtain ⟨routes, mm⟩ := rm
          exact Except.noConfusion he
      · intro hex
        obtain ⟨e, he⟩ := hex
        exfalso
        have hoe := (ortoolsAttempt_error_iff dist solver depot stops vc cap
          ts te e).2 he
        rw [hoa] at hoe
        exact Except.noConfusion hoe

/-! Non-negativity of the rounding helpers and of the baseline walk, used for
the savings-percentage analysis. -/

theorem pyRound0_nonneg (q : ℚ) (h : 0 ≤ q) : 0 ≤ pyRound0 q := by
  have hf : (0 : Int) ≤ q.floor := by
    rw [Rat.le_floor]
    exact_mod_cast h
  rw [pyRound0]
  split_ifs <;> omega

theorem pyRound2_nonneg (q : ℚ) (h : 0 ≤ q) : 0 ≤ pyRound2 q := by
  rw [pyRound2]
  have h0 : (0 : Int) ≤ pyRound0 (q * 100) :=
    pyRound0_nonneg _ (by positivity)
  have h1 : (0 : ℚ) ≤ (pyRound0 (q * 100) : ℚ) := by exact_mod_cast h0
  positivity

theorem baselineWalk_nonneg (dist : LatLng → LatLng → ℚ) (depot : LatLng)
    (h0 : ∀ a b, 0 ≤ dist a b) :
    ∀ (l : List Stop) (curr : LatLng), 0 ≤ baselineWalk dist depot curr l := by
  intro l
  induction l with
  | nil => intro curr; exact h0 _ _
  | cons s rest ih =>
    intro curr
    rw [baselineWalk]
    exact add_nonneg (h0 _ _) (ih _)

theorem ne_nil_of_mem_filter_nonEmpty {α : Type _} {l : List α}
    {L : List (List α)}
    (h : l ∈ L.filter (fun r => !r.isEmpty)) : l ≠ [] := by
  have := (List.mem_filter.1 h).2
  intro hnil
  subst hnil
  simp at this

theorem ortoolsAttempt_ok_routes_nonempty (dist : LatLng → LatLng → ℚ)
    (solver : SolverModel → Option (List (List Nat)))
    (depot : LatLng) (stops : List Stop) (vc cap : Int)
    (ts te : Option String) (routes : List (List StopDict)) (mm : Int)
    (h : ortoolsAttempt dist solver depot stops vc cap ts te
      = .ok (some (routes, mm))) :
    ∀ rt ∈ routes, rt ≠ [] := by
  rw [ortoolsAttempt] at h
  cases h1 : parse_hhmm ts with
  | error e1 => rw [h1] at h; exact Except.noConfusion h
  | ok v1 =>
    rw [h1] at h
    cases h2 : parse_hhmm te with
    | error e2 => rw [h2] at h; exact Except.noConfusion h
    | ok v2 =>
      rw [h2] at h
      cases h3 : parseWindows (24 * 60) stops with
      | error e3 => rw [h3] at h; exact Except.noConfusion h
      | ok ws =>
        rw [h3] at h
        dsimp only at h
        cases hsol : solver (buildModel dist depot stops vc cap ts te
            (pyOr v1 0, pyOr v2 (24 * 60)) ws) with
        | none =>
          rw [hsol] at h
          dsimp only at h
          injection h with h'
          exact Option.noConfusion h'
        | some sol =>
          rw [hsol] at h
          dsimp only at h
          injection h with h'
          injection h' with h''
          have hr : routes = (((List.range vc.toNat).map
              (fun v => extractVehicle
                (dist_mmile dist (depotStop depot ts te :: stops))
                (depotStop depot ts te :: stops) (sol.getD v []))).map
                Prod.fst).filter (fun r => !r.isEmpty) :=
            (congrArg Prod.fst h'').symm
          intro rt hrt
          rw [hr] at hrt
          exact ne_nil_of_mem_filter_nonEmpty hrt

/-! Concrete fixtures used by the witnesses and counterexamples. -/

/-- Degenerate distance: every pair of coordinates at distance `0`. -/
def dist0 : LatLng → LatLng → ℚ := fun _ _ => 0

/-- Distance giving `0.0016` miles between any two distinct coordinates (and
`0` on the diagonal), chosen so that per-leg integer scaling rounds up. -/
def cexDist : LatLng → LatLng → ℚ := fun a b => if a = b then 0 else 1/625

/-- A stop at `(1, 0)` with no demand and no time window. -/
def stopA : Stop := ⟨"A", 1, 0, none, 0, none, none⟩

/-- A stop at `(2, 0)` with no demand and no time window. -/
def stopB : Stop := ⟨"B", 2, 0, none, 0, none, none⟩

/-- A stop whose `tw_start` is present but not parseable as HH:MM. -/
def stopBadTW : Stop := ⟨"A", 1, 0, none, 0, some "0800", none⟩

/-- Solver oracle modelling an OR-Tools run that finds no solution. -/
def solverNone : SolverModel → Option (List (List Nat)) := fun _ => none

/-- Solver oracle modelling an OR-Tools run that returns node `1` on the
first vehicle. -/
def solverOne : SolverModel → Option (List (List Nat)) := fun _ => some [[1]]

/-- Solver oracle that succeeds exactly when the model it receives carries
`vehicle_count = 0`: reaching `engine = "ortools"` through it certifies that
the raw, unclamped vehicle count was handed to the solver. -/
def solverProbe : SolverModel → Option (List (List Nat)) := fun m =>
  if m.vehicle_count = 0 then some [[1]] else none

/-- Default record used to project concrete results out of `Except`. -/
def emptyResult : RoutingResult := ⟨"", [], 0, 0, 0, none⟩

/-- Concrete fallback run with two stops and two vehicles. -/
def resTwoStops : RoutingResult :=
  (optimize_routes dist0 false solverNone (0, 0) [stopA, stopB] 2 10
    none none).toOption.getD emptyResult

/-- Concrete fallback run with one stop. -/
def resOneStop : RoutingResult :=
  (optimize_routes dist0 false solverNone (0, 0) [stopA] 1 10
    none none).toOption.getD emptyResult

/-- Concrete solver-success run with one stop. -/
def resOrtools : RoutingResult :=
  (optimize_routes dist0 true solverOne (0, 0) [stopA] 1 10
    none none).toOption.getD emptyResult

/-- Concrete fallback run with one stop and two vehicles. -/
def resOneStopTwoVeh : RoutingResult :=
  (optimize_routes dist0 false solverNone (0, 0) [stopA] 2 10
    none none).toOption.getD emptyResult

/-- Concrete fallback run with the tie-breaking distance `cexDist`. -/
def resCex : RoutingResult :=
  (optimize_routes cexDist false solverNone (0, 0) [stopA, stopB] 1 10
    none none).toOption.getD emptyResult

/-- C1 counterexample: when the solver oracle produces routes, the engine
field is the string "ortools" (optimizer.py line 146), which is none of the
three values `constrained`, `greedy-fallback`, `none` allowed by the claim. -/
theorem C1_counterexample :
    (optimize_routes dist0 true solverOne (0, 0) [stopA] 1 10 none
      none).toOption.map RoutingResult.engine = some "ortools" ∧
    "ortools" ≠ "constrained" ∧ "ortools" ≠ "greedy-fallback" ∧
    "ortools" ≠ "none" := by decide

/-- C1 (amended): the engine field of every result of `optimize_routes` is
one of exactly `ortools`, `greedy-fallback`, `none`; it is `none` exactly for
the empty stop list; it is `ortools` whenever the constrained solver produced
the routes (stops present, solver available and successful); and it is
`greedy-fallback` whenever the greedy router produced them, on both such
paths: solver unavailable, or available but without a solution. -/
theorem C1_amended : ∀ (dist : LatLng → LatLng → ℚ) (hot : Bool)
    (solver : SolverModel → Option (List (List Nat)))
    (depot : LatLng) (stops : List Stop) (vc cap : Int)
    (ts te : Option String) (r : RoutingResult),
    optimize_routes dist hot solver depot stops vc cap ts te = .ok r →
    (r.engine = "ortools" ∨ r.engine = "greedy-fallback" ∨
      r.engine = "none") ∧
    (r.engine = "none" ↔ stops = []) ∧
    (∀ routes mm, stops ≠ [] → hot = true →
      ortoolsAttempt dist solver depot stops vc cap ts te
        = .ok (some (routes, mm)) →
      r.engine = "ortools") ∧
    (stops ≠ [] → hot = true →
      ortoolsAttempt dist solver depot stops vc cap ts te = .ok none →
      r.engine = "greedy-fallback") ∧
    (stops ≠ [] → hot = false → r.engine = "greedy-fallback") := by
  intro dist hot solver depot stops vc cap ts te r h
  by_cases hne : stops = []
  · subst hne
    have h0 : optimize_routes dist hot solver depot [] vc cap ts te
        = .ok ⟨"none", [], 0, 0, 0, some "no stops"⟩ := rfl
    rw [h0] at h
    injection h with h'
    subst h'
    refine ⟨Or.inr (Or.inr rfl), by simp, ?_, ?_, ?_⟩
    · intro _ _ hne' _ _
      exact absurd rfl hne'
    · intro hne' _ _
      exact absurd rfl hne'
    · intro hne' _
      exact absurd rfl hne'
  · cases hot with
    | false =>
      rw [optimize_routes_unavailable dist solver depot stops vc cap ts te
        hne] at h
      injection h with h'
      subst h'
      refine ⟨Or.inr (Or.inl rfl), ?_, ?_, ?_, ?_⟩
      · rw [finish_engine]
        constructor
        · intro he
          exact absurd he (by decide)
        · intro hs
          exact absurd hs hne
      · intro _ _ _ hf _
        exact absurd hf (by decide)
      · intro _ hf _
        exact absurd hf (by decide)
      · intro _ _
        rfl
    | true =>
      rw [optimize_routes_available dist solver depot stops vc cap ts te hne]
        at h
      cases hoa : ortoolsAttempt dist solver depot stops vc cap ts te with
      | error e =>
        rw [hoa] at h
        exact Except.noConfusion h
      | ok v =>
        rw [hoa] at h
        cases v with
        | none =>
          injection h with h'
          subst h'
          refine ⟨Or.inr (Or.inl rfl), ?_, ?_, ?_, ?_⟩
          · rw [finish_engine]
            constructor
            · intro he
              exact absurd he (by decide)
            · intro hs
              exact absurd hs hne
          · intro routes mm _ _ hoa'
            injection hoa' with h''
            exact Option.noConfusion h''
          · intro _ _ _
            rfl
          · intro _ hf
            exact absurd hf (by decide)
        | some rm =>
          obtain ⟨routes, mm⟩ := rm
          injection h with h'
          subst h'
          refine ⟨Or.inl rfl, ?_, ?_, ?_, ?_⟩
          · rw [finish_engine]
            constructor
            · intro he
              exact absurd he (by decide)
            · intro hs
              exact absurd hs hne
          · intro _ _ _ _ _
            rfl
          · intro _ _ hoa'
            injection hoa' with h''
            exact Option.noConfusion h''
          · intro _ hf
            exact absurd hf (by decide)

/-- C1 witness: the solver-success association instantiated on a concrete
run: the solver oracle returns node 1 on the first vehicle and the engine is
reported as "ortools". -/
theorem C1_witness : resOrtools.engine = "ortools" :=
  (C1_amended dist0 true solverOne (0, 0) [stopA] 1 10 none none resOrtools
    (by decide)).2.2.1 [[stopDict stopA]] 0 (by decide) rfl (by decide)

/-- C2 counterexample: with the constrained solver available, a stop whose
time-window string is present but not parseable as HH:MM makes
`optimize_routes` raise (lines 130–133 call `parse_hhmm` with no handler);
the malformation escapes as a hard failure instead of being recovered. -/
theorem C2_counterexample :
    optimize_routes dist0 true solverNone (0, 0) [stopBadTW] 1 10 none none
      = .error "ValueError: cannot unpack split result" := by decide

/-- C2 (amended): for a non-empty stop list, `optimize_routes` raises exactly
when the constrained solver is available and the sequential parse of the
depot and stop time windows raises; when the solver is unavailable the
windows are never parsed and a normal result is returned. -/
theorem C2_amended : ∀ (dist : LatLng → LatLng → ℚ) (hot : Bool)
    (solver : SolverModel → Option (List (List Nat)))
    (depot : LatLng) (stops : List Stop) (vc cap : Int)
    (ts te : Option String),
    stops ≠ [] →
    ((∃ e, optimize_routes dist hot solver depot stops vc cap ts te
        = .error e)
      ↔ (hot = true ∧ ∃ e, windowParses ts te stops = .error e)) :=
  fun dist hot solver depot stops vc cap ts te hne =>
    optimize_error_iff dist hot solver depot stops vc cap ts te hne

/-- C2 witness: the amended claim instantiated on the malformed fixture. -/
theorem C2_witness :
    (∃ e, optimize_routes dist0 true solverNone (0, 0) [stopBadTW] 1 10
        none none = .error e)
      ↔ (true = true ∧ ∃ e, windowParses none none [stopBadTW] = .error e) :=
  C2_amended dist0 true solverNone (0, 0) [stopBadTW] 1 10 none none
    (by decide)

/-- C3: for the empty stop list and any depot, fleet parameters and windows,
`optimize_routes` returns without error the zero result with engine "none",
no routes, zero total, zero baseline and zero savings. -/
theorem C3_empty_stops : ∀ (dist : LatLng → LatLng → ℚ) (hot : Bool)
    (solver : SolverModel → Option (List (List Nat)))
    (depot : LatLng) (vc cap : Int) (ts te : Option String),
    optimize_routes dist hot solver depot [] vc cap ts te
      = .ok ⟨"none", [], 0, 0, 0, some "no stops"⟩ :=
  fun _ _ _ _ _ _ _ _ => rfl

/-- C4: for every non-empty stop list and vehicle count at least one, the
routes returned by the greedy fallback partition the input stops: their
concatenation is a permutation of the input stop list (each stop occurring
exactly once, nothing else occurring). -/
theorem C4_partition : ∀ (dist : LatLng → LatLng → ℚ) (hot : Bool)
    (solver : SolverModel → Option (List (List Nat)))
    (depot : LatLng) (stops : List Stop) (vc cap : Int)
    (ts te : Option String) (r : RoutingResult),
    stops ≠ [] → 1 ≤ vc →
    optimize_routes dist hot solver depot stops vc cap ts te = .ok r →
    r.engine = "greedy-fallback" →
    r.routes.flatten.Perm (stops.map stopDict) := by
  intro dist hot solver depot stops vc cap ts te r hne hvc h heng
  rcases optimize_ok_cases dist hot solver depot stops vc cap ts te r hne h
    with ⟨routes, mm, hhot, hoa, rfl⟩ | ⟨note, rfl⟩
  · rw [finish_engine] at heng
    exact absurd heng (by decide)
  · rw [finish_routes]
    exact greedyBlock_flatten_perm dist depot stops vc

/-- C4 witness: the partition property on a concrete two-stop fallback run. -/
theorem C4_witness :
    resTwoStops.routes.flatten.Perm ([stopA, stopB].map stopDict) :=
  C4_partition dist0 false solverNone (0, 0) [stopA, stopB] 2 10 none none
    resTwoStops (by decide) (by decide) (by decide) (by decide)

/-- C5: the fallback computes one global nearest-neighbour tour from the
depot (greedy selection of the nearest unvisited stop, distance ties broken
by earliest input index — the `IsNNTour` predicate), and the returned routes
are that single tour partitioned round-robin: tour position `k` goes to
vehicle `k % vehicle_count`; nearest-neighbour is not re-run per vehicle. -/
theorem C5_nn_tour : ∀ (dist : LatLng → LatLng → ℚ)
    (solver : SolverModel → Option (List (List Nat)))
    (depot : LatLng) (stops : List Stop) (vc cap : Int)
    (ts te : Option String) (r : RoutingResult),
    stops ≠ [] → 1 ≤ vc →
    optimize_routes dist false solver depot stops vc cap ts te = .ok r →
    IsNNTour dist stops depot [] (greedy_order dist depot stops) ∧
    fillBuckets vc.toNat (greedy_order dist depot stops)
      = (List.range vc.toNat).map (fun k =>
          ((greedy_order dist depot stops).enum.filter
            (fun p => decide (p.1 % vc.toNat = k))).map Prod.snd) ∧
    r.routes = ((fillBuckets vc.toNat (greedy_order dist depot stops)).map
        (mkRoute stops)).filter (fun rt => !rt.isEmpty) := by
  intro dist solver depot stops vc cap ts te r hne hvc h
  have hmax : max 1 vc = vc := max_eq_right hvc
  have hpos : 0 < vc.toNat := by omega
  refine ⟨greedy_order_isNNTour dist depot stops,
    fillBuckets_eq _ hpos _, ?_⟩
  rcases optimize_ok_cases dist false solver depot stops vc cap ts te r hne h
    with ⟨routes, mm, hhot, -, -⟩ | ⟨note, rfl⟩
  · exact absurd hhot (by decide)
  · rw [finish_routes, greedyBlock_fst, hmax]

/-- C5 witness: the tour and round-robin characterisation on a concrete
two-stop, two-vehicle fallback run. -/
theorem C5_witness :
    IsNNTour dist0 [stopA, stopB] (0, 0) []
      (greedy_order dist0 (0, 0) [stopA, stopB]) ∧
    fillBuckets (2 : Int).toNat (greedy_order dist0 (0, 0) [stopA, stopB])
      = (List.range (2 : Int).toNat).map (fun k =>
          ((greedy_order dist0 (0, 0) [stopA, stopB]).enum.filter
            (fun p => decide (p.1 % (2 : Int).toNat = k))).map Prod.snd) ∧
    resTwoStops.routes = ((fillBuckets (2 : Int).toNat
        (greedy_order dist0 (0, 0) [stopA, stopB])).map
        (mkRoute [stopA, stopB])).filter (fun rt => !rt.isEmpty) :=
  C5_nn_tour dist0 solverNone (0, 0) [stopA, stopB] 2 10 none none
    resTwoStops (by decide) (by decide) (by decide)

/-- C6: for every non-empty input (with the geodesic distance non-negative,
as the haversine formula guarantees), the savings percentage equals
`(baseline - total) / baseline * 100` rounded to two decimals whenever the
baseline is non-zero, and is `0` when the baseline is `0`. -/
theorem C6_savings : ∀ (dist : LatLng → LatLng → ℚ) (hot : Bool)
    (solver : SolverModel → Option (List (List Nat)))
    (depot : LatLng) (stops : List Stop) (vc cap : Int)
    (ts te : Option String) (r : RoutingResult),
    (∀ a b, 0 ≤ dist a b) → stops ≠ [] →
    optimize_routes dist hot solver depot stops vc cap ts te = .ok r →
    (r.baseline_miles = 0 → r.savings_pct = 0) ∧
    (r.baseline_miles ≠ 0 →
      r.savings_pct = pyRound2 ((r.baseline_miles - r.total_miles)
        / r.baseline_miles * 100)) := by
  intro dist hot solver depot stops vc cap ts te r h0 hne h
  have hfin : ∃ e' rts' t' n', r = finish dist depot stops e' rts' t' n' := by
    rcases optimize_ok_cases dist hot solver depot stops vc cap ts te r hne h
      with ⟨routes, mm, -, -, hr⟩ | ⟨note, hr⟩
    · exact ⟨_, _, _, _, hr⟩
    · exact ⟨_, _, _, _, hr⟩
  obtain ⟨e', rts', t', n', rfl⟩ := hfin
  constructor
  · intro hb
    rw [finish_baseline] at hb
    rw [finish_savings, hb]
    simp
  · intro hb
    rw [finish_baseline] at hb
    have hnn : 0 ≤ pyRound2 (baselineWalk dist depot depot stops) :=
      pyRound2_nonneg _ (baselineWalk_nonneg dist depot h0 stops depot)
    have hpos : 0 < pyRound2 (baselineWalk dist depot depot stops) :=
      lt_of_le_of_ne hnn (Ne.symm hb)
    rw [finish_savings, if_pos hpos, finish_baseline, finish_total]

/-- C6 witness: the savings cases on a concrete run whose baseline is zero. -/
theorem C6_witness :
    (resOneStop.baseline_miles = 0 → resOneStop.savings_pct = 0) ∧
    (resOneStop.baseline_miles ≠ 0 →
      resOneStop.savings_pct
        = pyRound2 ((resOneStop.baseline_miles - resOneStop.total_miles)
          / resOneStop.baseline_miles * 100)) :=
  C6_savings dist0 false solverNone (0, 0) [stopA] 1 10 none none resOneStop
    (fun _ _ => le_refl 0) (by decide) (by decide)

/-- C7: the time-window codec values claimed by the spec:
`parse("08:00") = 480`, `parse(None) = parse("") = parse("nan") = None`, and
`parse("8:5") = 485` (no zero padding required, `hour*60 + minute`). -/
theorem C7_codec :
    parse_hhmm (some "08:00") = .ok (some 480) ∧
    parse_hhmm none = .ok none ∧
    parse_hhmm (some "") = .ok none ∧
    parse_hhmm (some "nan") = .ok none ∧
    parse_hhmm (some "8:5") = .ok (some 485) := by decide

/-- C8 counterexample: on a concrete two-stop input the fallback's reported
total (computed directly from raw geodesic distances, lines 177–188) is 0.0,
while the total derived from the integer-scaled matrix would be 0.01 — the
matrix is not the source of the fallback's travel costs. -/
theorem C8_counterexample :
    (optimize_routes cexDist false solverNone (0, 0) [stopA, stopB] 1 10
      none none).toOption.map RoutingResult.total_miles = some 0 ∧
    fallbackMatrixTotal cexDist (0, 0) [stopA, stopB] 1 = 1/100 ∧
    (0 : ℚ) ≠ 1/100 := by decide

/-- C8 (amended): the greedy fallback's reported total is the two-decimal
rounding of the raw geodesic walk sums (not of matrix-derived costs), and
there are inputs on which this differs from the matrix-derived total. -/
theorem C8_amended :
    (∀ (dist : LatLng → LatLng → ℚ)
      (solver : SolverModel → Option (List (List Nat)))
      (depot : LatLng) (stops : List Stop) (vc cap : Int)
      (ts te : Option String) (r : RoutingResult), stops ≠ [] →
      optimize_routes dist false solver depot stops vc cap ts te = .ok r →
      r.total_miles
        = pyRound2 (greedyTotal dist depot stops (max 1 vc).toNat)) ∧
    (∃ r, optimize_routes cexDist false solverNone (0, 0) [stopA, stopB] 1 10
        none none = .ok r ∧
      r.total_miles ≠ fallbackMatrixTotal cexDist (0, 0) [stopA, stopB] 1)
      := by
  constructor
  · intro dist solver depot stops vc cap ts te r hne h
    rcases optimize_ok_cases dist false solver depot stops vc cap ts te r hne
      h with ⟨routes, mm, hhot, -, -⟩ | ⟨note, rfl⟩
    · exact absurd hhot (by decide)
    · rw [finish_total, greedyBlock_snd]
  · exact ⟨resCex, by decide, by decide⟩

/-- C8 witness: the direct-geodesic total equation on a concrete run. -/
theorem C8_witness :
    resCex.total_miles
      = pyRound2 (greedyTotal cexDist (0, 0) [stopA, stopB]
        (max 1 (1 : Int)).toNat) :=
  C8_amended.1 cexDist solverNone (0, 0) [stopA, stopB] 1 10 none none
    resCex (by decide) (by decide)

/-- C9 counterexample: with `vehicle_count = 0` the constrained branch hands
the solver a model whose vehicle count is the raw 0, not the clamped 1
(optimizer.py line 91 passes `vehicle_count` unclamped to
`RoutingIndexManager`); a solver oracle that succeeds only on
`vehicle_count = 0` is reached and the engine reports "ortools". -/
theorem C9_counterexample :
    (buildModel dist0 (0, 0) [stopA] 0 10 none none (0, 1440)
      [(0, 1440)]).vehicle_count = 0 ∧
    ((0 : Int) ≠ 1) ∧
    (optimize_routes dist0 true solverProbe (0, 0) [stopA] 0 10 none
      none).toOption.map RoutingResult.engine = some "ortools" := by decide

/-- C9 (amended): invalid fleet parameters are partially clamped: every
per-vehicle capacity handed to the constrained solver is clamped to at least
1, and the greedy fallback clamps the vehicle count to at least 1 (and never
raises), but the vehicle count handed to the constrained solver is the raw,
unclamped value. -/
theorem C9_amended : ∀ (dist : LatLng → LatLng → ℚ) (depot : LatLng)
    (stops : List Stop) (vc cap : Int) (ts te : Option String)
    (dw : Int × Int) (wins : List (Int × Int)),
    (∀ c ∈ (buildModel dist depot stops vc cap ts te dw wins).capacities,
      1 ≤ c) ∧
    (buildModel dist depot stops vc cap ts te dw wins).vehicle_count = vc ∧
    (∀ solver, stops ≠ [] →
      ∃ r, optimize_routes dist false solver depot stops vc cap ts te
        = .ok r) ∧
    (fillBuckets (max 1 vc).toNat (greedy_order dist depot stops)).length
      = (max 1 vc).toNat := by
  intro dist depot stops vc cap ts te dw wins
  refine ⟨?_, rfl, ?_, ?_⟩
  · intro c hc
    have hc' : c ∈ List.replicate vc.toNat (max 1 cap) := hc
    rw [List.eq_of_mem_replicate hc']
    exact le_max_left _ _
  · intro solver hne
    exact ⟨_, optimize_routes_unavailable dist solver depot stops vc cap ts
      te hne⟩
  · exact length_fillBuckets _ (max_one_toNat_pos vc) _

/-- C9 witness: concrete instances of the clamping facts. -/
theorem C9_witness :
    (1 : Int) ≤ 1 ∧
    (buildModel dist0 (0, 0) [stopA] 0 (-5) none none (0, 1440)
      [(0, 1440)]).vehicle_count = 0 :=
  ⟨(C9_amended dist0 (0, 0) [stopA] 2 (-5) none none (0, 1440)
      [(0, 1440)]).1 1 (by decide),
    (C9_amended dist0 (0, 0) [stopA] 0 (-5) none none (0, 1440)
      [(0, 1440)]).2.1⟩

/-- C10 counterexample: with `vehicle_count = 0` and one stop, the greedy
fallback returns one route (the clamp `max(1, vehicle_count)` applies), not
`min(vehicle_count, number of stops) = 0` as the claim states. -/
theorem C10_counterexample :
    (optimize_routes dist0 false solverNone (0, 0) [stopA] 0 10 none
      none).toOption.map (fun r => r.routes.length) = some 1 ∧
    (1 : Nat) ≠ min 0 1 := by decide

/-- C10 (amended): every route in any returned result is non-empty (vehicles
with no stops are omitted), and under the greedy fallback the number of
routes equals `min(max(1, vehicle_count), number of stops)`. -/
theorem C10_amended : ∀ (dist : LatLng → LatLng → ℚ) (hot : Bool)
    (solver : SolverModel → Option (List (List Nat)))
    (depot : LatLng) (stops : List Stop) (vc cap : Int)
    (ts te : Option String) (r : RoutingResult),
    optimize_routes dist hot solver depot stops vc cap ts te = .ok r →
    (∀ rt ∈ r.routes, rt ≠ []) ∧
    (r.engine = "greedy-fallback" →
      r.routes.length = min (max 1 vc).toNat stops.length) := by
  intro dist hot solver depot stops vc cap ts te r h
  by_cases hne : stops = []
  · subst hne
    have h0 : optimize_routes dist hot solver depot [] vc cap ts te
        = .ok ⟨"none", [], 0, 0, 0, some "no stops"⟩ := rfl
    rw [h0] at h
    injection h with h'
    subst h'
    constructor
    · intro rt hrt
      simp at hrt
    · intro he
      exact absurd he (by decide)
  · rcases optimize_ok_cases dist hot solver depot stops vc cap ts te r hne h
      with ⟨routes, mm, hhot, hoa, rfl⟩ | ⟨note, rfl⟩
    · constructor
      · rw [finish_routes]
        exact ortoolsAttempt_ok_routes_nonempty dist solver depot stops vc
          cap ts te routes mm hoa
      · rw [finish_engine]
        intro he
        exact absurd he (by decide)
    · constructor
      · rw [finish_routes, greedyBlock_fst]
        intro rt hrt
        exact ne_nil_of_mem_filter_nonEmpty hrt
      · intro _
        rw [finish_routes]
        exact greedyBlock_routes_length dist depot stops vc

/-- C10 witness: the route count equation on a concrete one-stop, two-vehicle
fallback run. -/
theorem C10_witness :
    resOneStopTwoVeh.routes.length
      = min (max 1 (2 : Int)).toNat [stopA].length :=
  (C10_amended dist0 false solverNone (0, 0) [stopA] 2 10 none none
    resOneStopTwoVeh (by decide)).2 (by decide)

end RouteOpt
